import Mathlib

/-!
Verification of the runecs task-launch-and-observe pipeline.

This file gives a shallow embedding, in Lean 4, of the core logic of the
runecs repository (a Go CLI that launches one-off ECS tasks and observes
them): ARN parsing and construction, task-definition cloning, task-status
polling, batch log retrieval with a cursor, the live-tail relay loop, and
the request assembly and error propagation of the Execute orchestrator.

External AWS calls are modelled as explicit response values handed to the
embedded functions; the embedded functions reproduce the Go control flow
over those responses.  Semantics of the Go standard library and of the
aws-sdk-go-v2 arn package (strings.Split, strings.SplitN,
strings.LastIndex, arn.Parse, arn.ARN.String) are embedded faithfully as
well, since the repository's functions are built directly on them.
-/

namespace RunECS

/-! ## Go string helpers

`goSplit sep cs` is Go's strings.Split for a one-character separator: it
never returns an empty list, and splitting the empty string yields one
empty group. -/

def goSplit (sep : Char) : List Char → List (List Char)
  | [] => [[]]
  | c :: rest =>
    match goSplit sep rest with
    | [] => [[]]
    | g :: gs => if c = sep then [] :: g :: gs else (c :: g) :: gs

/-- Rejoin split groups with the separator; used to express Go's
strings.SplitN, whose final group keeps the unsplit remainder. -/
def joinSep (sep : Char) : List (List Char) → List Char
  | [] => []
  | [g] => g
  | g :: gs => g ++ sep :: joinSep sep gs

/-- Go's strings.SplitN for a one-character separator and n ≥ 1: at most
`n` groups, the last group holding the unsplit remainder. -/
def goSplitN (sep : Char) (n : Nat) (cs : List Char) : List (List Char) :=
  let gs := goSplit sep cs
  if gs.length ≤ n then gs
  else gs.take (n - 1) ++ [joinSep sep (gs.drop (n - 1))]

/-- Go's strings.LastIndex for a one-character needle: the index of the
last occurrence of `sep`, or none. -/
def goLastIndex (sep : Char) : List Char → Option Nat
  | [] => none
  | c :: rest =>
    match goLastIndex sep rest with
    | some i => some (i + 1)
    | none => if c = sep then some 0 else none

theorem goSplit_ne_nil (sep : Char) (cs : List Char) : goSplit sep cs ≠ [] := by
  cases cs with
  | nil => simp [goSplit]
  | cons c rest =>
    simp only [goSplit]
    cases h : goSplit sep rest with
    | nil => simp
    | cons g gs =>
      by_cases hc : c = sep <;> simp [hc]

theorem goSplit_head (sep : Char) (cs : List Char) :
    (goSplit sep cs).headD [] = cs.takeWhile (· != sep) := by
  induction cs with
  | nil => simp [goSplit]
  | cons c rest ih =>
    simp only [goSplit]
    cases h : goSplit sep rest with
    | nil => exact absurd h (goSplit_ne_nil sep rest)
    | cons g gs =>
      rw [h] at ih
      by_cases hc : c = sep
      · simp [hc, List.takeWhile]
      · have hb : (c != sep) = true := bne_iff_ne.mpr hc
        simpa [hc, List.takeWhile, hb] using ih

/-- Go's strings.HasPrefix, as a prefix test on the character lists. -/
def goHasPfx (pfx s : String) : Bool :=
  pfx.data.isPrefixOf s.data

theorem goSplit_head_getD (sep : Char) (cs : List Char) :
    (goSplit sep cs).head?.getD [] = cs.takeWhile (· != sep) := by
  rw [← List.headD_eq_head?_getD]
  exact goSplit_head sep cs

theorem goLastIndex_none (sep : Char) (cs : List Char)
    (h : goLastIndex sep cs = none) : sep ∉ cs := by
  induction cs with
  | nil => simp
  | cons c rest ih =>
    simp only [goLastIndex] at h
    cases hr : goLastIndex sep rest with
    | some i => rw [hr] at h; simp at h
    | none =>
      rw [hr] at h
      by_cases hc : c = sep
      · simp [hc] at h
      · simp only [List.mem_cons, not_or]
        exact ⟨fun hx => hc hx.symm, ih hr⟩

theorem goLastIndex_some (sep : Char) (cs : List Char) (i : Nat)
    (h : goLastIndex sep cs = some i) :
    ∃ pre, cs = pre ++ sep :: cs.drop (i + 1) ∧ sep ∉ cs.drop (i + 1) := by
  induction cs generalizing i with
  | nil => simp [goLastIndex] at h
  | cons c rest ih =>
    simp only [goLastIndex] at h
    cases hr : goLastIndex sep rest with
    | some j =>
      rw [hr] at h
      simp only [Option.some.injEq] at h
      obtain ⟨pre, hpre, hnot⟩ := ih j hr
      refine ⟨c :: pre, ?_, ?_⟩
      · subst h
        simpa [List.drop] using congrArg (c :: ·) hpre
      · subst h
        simpa [List.drop] using hnot
    | none =>
      rw [hr] at h
      by_cases hc : c = sep
      · subst hc
        simp at h
        subst h
        exact ⟨[], by simp, goLastIndex_none c rest hr⟩
      · simp [hc] at h

/-! ## ARN parsing and construction

Embeds the aws-sdk-go-v2 arn package (arn.Parse and arn.ARN.String) and
the repository's helpers in internal/ecs (extractARNResource,
extractPartitionFromARN, buildARN), plus the log-group ARN and log-stream
pattern built in waitForTaskCompletion (internal/ecs/execute.go). -/

structure ARN where
  partition : String
  service : String
  region : String
  accountID : String
  resource : String
deriving DecidableEq, Repr

/-- aws-sdk-go-v2 arn.Parse: requires the "arn:" literal first, then
splits into exactly 6 colon-separated sections (SplitN with n = 6, so the
resource section keeps any further colons). Returns none on the two error
paths of the SDK parser. -/
def arnParse (s : String) : Option ARN :=
  if goHasPfx "arn:" s then
    match goSplitN ':' 6 s.data with
    | [_, p, svc, reg, acct, res] =>
      some ⟨String.mk p, String.mk svc, String.mk reg, String.mk acct, String.mk res⟩
    | _ => none
  else none

/-- internal/ecs extractARNResource: parse the ARN, then return the part
of the resource after the last "/" (strings.LastIndex), or the whole
resource when it has no "/". none exactly when arn.Parse fails. -/
def extractARNResource (arnString : String) : Option String :=
  match arnParse arnString with
  | none => none
  | some parsedARN =>
    match goLastIndex '/' parsedARN.resource.data with
    | some idx => some (String.mk (parsedARN.resource.data.drop (idx + 1)))
    | none => some parsedARN.resource

/-- internal/ecs extractPartitionFromARN: the Partition field of the
parsed ARN, none when arn.Parse fails. -/
def extractPartitionFromARN (arnString : String) : Option String :=
  (arnParse arnString).map ARN.partition

/-- internal/ecs buildARN, which fills an arn.ARN struct and calls its
String method: "arn" joined with the five components by ":". -/
def buildARN (partition service region accountID resource : String) : String :=
  "arn:" ++ partition ++ ":" ++ service ++ ":" ++ region ++ ":" ++ accountID ++ ":" ++ resource

/-- The log-group ARN constructed in waitForTaskCompletion
(internal/ecs/execute.go line 123):
buildARN(partition, "logs", region, account, "log-group:" + logGroup). -/
def buildLogGroupARN (partition region accountID logGroup : String) : String :=
  buildARN partition "logs" region accountID ("log-group:" ++ logGroup)

/-- The log-stream pattern built in waitForTaskCompletion
(internal/ecs/execute.go lines 125-132): the task id extracted from the
task ARN, inserted into "prefix/container/id"; errors propagate when the
ARN does not parse. -/
def buildLogStreamPattern (streamPfx containerName taskArn : String) : Option String :=
  match extractARNResource taskArn with
  | none => none
  | some taskID => some (streamPfx ++ "/" ++ containerName ++ "/" ++ taskID)

/-! ## Task definition cloning

Embeds cloneTaskDef (pkg deploy source, internal/ecs): the described task
definition is copied field-for-field (copier.Copy) into a new
registration request, with only the single container's image rewritten to
Sprintf("%s:%s", strings.Split(image, ":")[0], dockerImageTag). The task
definition carries its containers plus all remaining fields, which the
copy preserves verbatim; those remaining fields are embedded as opaque
`rest` components. -/

structure ContainerDefinition (α : Type) where
  image : Option String
  rest : α
deriving DecidableEq, Repr

structure TaskDefinitionResp (α β : Type) where
  containerDefinitions : List (ContainerDefinition α)
  rest : β
deriving DecidableEq, Repr

/-- The new image URI: strings.Split(image, ":")[0] ++ ":" ++ tag. -/
def newDockerURI (image tag : String) : String :=
  String.mk ((goSplit ':' image.data).headD []) ++ ":" ++ tag

/-- cloneTaskDef's pure core over the DescribeTaskDefinition response:
more than one container is an error, an absent first container is an
error, an absent image is an error; otherwise the registered definition
is the response with only the first container's image replaced. -/
def cloneTaskDef {α β : Type} (resp : TaskDefinitionResp α β) (dockerImageTag : String) :
    Except String (TaskDefinitionResp α β) :=
  if resp.containerDefinitions.length > 1 then
    .error "multiple container definitions in a single task are not supported"
  else
    match resp.containerDefinitions with
    | [] => .error "failed to get container definition: no container definitions found"
    | containerDef :: restDefs =>
      match containerDef.image with
      | none => .error "container definition has no image specified"
      | some image =>
        .ok { resp with containerDefinitions :=
          { containerDef with image := some (newDockerURI image dockerImageTag) } :: restDefs }

/-! ## Completion watcher

Embeds checkTaskStatus (internal/ecs/execute.go lines 67-106) over the
DescribeTasks response. The Go function returns a (bool, error) pair;
`TaskError.taskFailed` carries the data of the "task %s failed with exit
code %d" error, `TaskError.msg` the other error messages. -/

inductive TaskError where
  | msg (text : String)
  | taskFailed (taskArn : String) (exitCode : Int)
deriving DecidableEq, Repr

structure ContainerStatus where
  exitCode : Option Int
deriving DecidableEq, Repr

structure TaskStatus where
  lastStatus : Option String
  containers : List ContainerStatus
  taskArn : Option String
deriving DecidableEq, Repr

structure DescribeTasksOutput where
  tasks : List TaskStatus
deriving DecidableEq, Repr

/-- checkTaskStatus over a successfully fetched DescribeTasks response.
The final Go statement returns lastStatus == "STOPPED"; it is written
here per branch as true (inside the STOPPED branch) and false (outside). -/
def checkTaskStatus (output : DescribeTasksOutput) : Bool × Option TaskError :=
  match output.tasks with
  | [] => (false, some (.msg "failed to get task information: no tasks found in response"))
  | taskInfo :: _ =>
    match taskInfo.lastStatus with
    | none => (false, some (.msg "task has no status information"))
    | some lastStatus =>
      if lastStatus = "STOPPED" then
        match taskInfo.containers with
        | [] => (false, some (.msg "failed to get container information: no containers found in task"))
        | container :: _ =>
          match container.exitCode with
          | none => (false, some (.msg "stopped container has no exit code"))
          | some exitCode =>
            match taskInfo.taskArn with
            | none => (false, some (.msg "task has no ARN"))
            | some taskArn =>
              if exitCode ≠ 0 then (true, some (.taskFailed taskArn exitCode))
              else (true, none)
      else (false, none)

/-! ## Log entries and batch/cursor retrieval

Embeds LogEntry (internal/ecs/types.go), getTaskLogs
(pkg/ecs/logs.go lines 65-124) over the FilterLogEvents response, and the
consumer-side sort of the logs command (cmd/logs.go lines 72-74). -/

structure LogEntry where
  streamName : String
  message : String
  timestamp : Int
deriving DecidableEq, Repr

structure FilteredLogEvent where
  logStreamName : Option String
  message : Option String
  timestamp : Option Int
deriving DecidableEq, Repr

/-- The collection loop of getTaskLogs: events missing stream name,
message or timestamp are skipped; the rest become LogEntry values in the
order the response lists them. -/
def collectLogs (events : List FilteredLogEvent) : List LogEntry :=
  events.filterMap fun event =>
    match event.logStreamName, event.message, event.timestamp with
    | some s, some m, some t => some ⟨s, m, t⟩
    | _, _, _ => none

/-- The cursor computation of getTaskLogs (lines 105-121): last event's
timestamp + 1 when the batch is non-empty and that timestamp is present;
otherwise the caller's startTime, defaulting to 0 when there was none. -/
def nextCursor (events : List FilteredLogEvent) (startTime : Option Int) : Int :=
  match events.getLast? with
  | some lastEvent =>
    match lastEvent.timestamp with
    | none => startTime.getD 0
    | some t => t + 1
  | none => startTime.getD 0

/-- getTaskLogs' successful result over the FilterLogEvents response:
the delivered entries and the new cursor. -/
def getTaskLogs (events : List FilteredLogEvent) (startTime : Option Int) :
    List LogEntry × Int :=
  (collectLogs events, nextCursor events startTime)

/-- Order used by the logs command's sort.Slice call. -/
def logLE (a b : LogEntry) : Prop := a.timestamp ≤ b.timestamp

instance : DecidableRel logLE := fun a b =>
  inferInstanceAs (Decidable (a.timestamp ≤ b.timestamp))

instance : IsTotal LogEntry logLE := ⟨fun a b => Int.le_total a.timestamp b.timestamp⟩

instance : IsTrans LogEntry logLE := ⟨fun _ _ _ h1 h2 => le_trans h1 h2⟩

/-- The consumer-side sort in cmd/logs.go (sort.Slice by ascending
timestamp), embedded by its contract: a sort of the list under logLE. -/
def sortLogs (logs : List LogEntry) : List LogEntry :=
  List.insertionSort logLE logs

/-- Decidable check that a delivered sequence is ascending by timestamp. -/
def isSortedByTimestamp : List LogEntry → Bool
  | [] => true
  | [_] => true
  | a :: b :: rest =>
    if a.timestamp ≤ b.timestamp then isSortedByTimestamp (b :: rest) else false

/-! ## Live-tail relay

Embeds the relay goroutine of TailLogGroups (log tail source,
internal/ecs): the stream's events are consumed in order; session-start
events are skipped; session-update events forward their complete entries
into the channel in order; on the default branch the goroutine first
returns if the stream carries an error, then returns if the event is nil,
and otherwise logs a warning and continues.  The relay is embedded over
the finite sequence of events received before the stream ends; its result
is the sequence of entries forwarded to the channel and the number of
events consumed before the goroutine returned. -/

/-- Capacity of the channel created by TailLogGroups
(make(chan LogEntry, 100)). -/
def tailLogChanCapacity : Nat := 100

structure LiveTailSessionLogEvent where
  logStreamName : Option String
  message : Option String
  timestamp : Option Int
deriving DecidableEq, Repr

/-- One event received from the live-tail stream. unknown and nilEvent
carry whether stream.Err() reports an error at that point, since the
default branch consults it. -/
inductive StreamEvent where
  | sessionStart
  | sessionUpdate (sessionResults : List LiveTailSessionLogEvent)
  | unknown (streamErr : Bool)
  | nilEvent (streamErr : Bool)
deriving DecidableEq, Repr

/-- A session-update entry is forwarded only when stream name, message
and timestamp are all present. -/
def sessionEntry (event : LiveTailSessionLogEvent) : Option LogEntry :=
  match event.logStreamName, event.message, event.timestamp with
  | some s, some m, some t => some ⟨s, m, t⟩
  | _, _, _ => none

/-- The relay loop: returns the entries forwarded to the channel, in
order, and how many events it consumed before returning (the channel is
closed when it returns). -/
def relayRun : List StreamEvent → List LogEntry × Nat
  | [] => ([], 0)
  | event :: rest =>
    match event with
    | .sessionStart =>
      let (entries, consumed) := relayRun rest
      (entries, consumed + 1)
    | .sessionUpdate sessionResults =>
      let (entries, consumed) := relayRun rest
      (sessionResults.filterMap sessionEntry ++ entries, consumed + 1)
    | .unknown streamErr =>
      if streamErr then ([], 1)
      else
        let (entries, consumed) := relayRun rest
        (entries, consumed + 1)
    | .nilEvent _ => ([], 1)

/-- Entries a single benign event contributes to the channel. -/
def eventEntries : StreamEvent → List LogEntry
  | .sessionStart => []
  | .sessionUpdate sessionResults => sessionResults.filterMap sessionEntry
  | .unknown _ => []
  | .nilEvent _ => []

/-- Events that do not make the relay return: session-start,
session-update, and unrecognized events while the stream reports no
error. -/
def benignEvent : StreamEvent → Bool
  | .sessionStart => true
  | .sessionUpdate _ => true
  | .unknown streamErr => !streamErr
  | .nilEvent _ => false

/-! ## Execute orchestrator

Embeds Execute (internal/ecs/execute.go lines 201-317): service
description, latest-definition resolution, optional cloning, run-request
assembly (launch-type versus capacity-provider strategy, optional network
configuration), task submission, and the wait phase.  Each AWS call is
modelled by the response the environment supplies for it; the wait phase
(waitForTaskCompletion) is modelled by its observable outcome: the log
entries collected into the result, the final Finished flag, and its
error, if any. -/

structure CapacityProviderStrategyItem where
  capacityProvider : String
  weight : Int
  base : Int
deriving DecidableEq, Repr

structure AwsVpcConfiguration where
  subnets : List String
  securityGroups : List String
  assignPublicIp : String
deriving DecidableEq, Repr

structure ServiceNetworkConfiguration where
  subnets : List String
  securityGroups : List String
deriving DecidableEq, Repr

/-- The fields of the described service that Execute reads.  The Go code
reads NetworkConfiguration.AwsvpcConfiguration behind two nil checks;
both pointers are collapsed into one Option here. -/
structure ServiceInfo where
  networkConfiguration : Option ServiceNetworkConfiguration
  capacityProviderStrategy : List CapacityProviderStrategyItem
deriving DecidableEq, Repr

/-- Task definition metadata (internal/ecs/types.go TaskDefinition). -/
structure TaskDefinition where
  name : String
  logGroup : String
  logStreamPfx : String
  cpu : String
  memory : String
  requiresCompatibilities : List String
deriving DecidableEq, Repr

/-- The run request Execute assembles.  A Go nil slice field is the empty
list; the optional LaunchType and NetworkConfiguration fields are Option,
none meaning the field is omitted from the request. -/
structure RunTaskInput where
  cluster : String
  taskDefinition : String
  containerName : String
  command : List String
  capacityProviderStrategy : List CapacityProviderStrategyItem
  launchType : Option String
  networkConfiguration : Option AwsVpcConfiguration
deriving DecidableEq, Repr

/-- Lines 229-232: subnets and security groups from the service's VPC
configuration when present, nil slices otherwise. -/
def extractNetwork (serviceInfo : ServiceInfo) : List String × List String :=
  match serviceInfo.networkConfiguration with
  | some config => (config.subnets, config.securityGroups)
  | none => ([], [])

/-- Lines 235-238: the service's capacity-provider strategy when
non-empty, the nil slice otherwise. -/
def extractCapacityStrategy (serviceInfo : ServiceInfo) : List CapacityProviderStrategyItem :=
  if serviceInfo.capacityProviderStrategy.length > 0 then
    serviceInfo.capacityProviderStrategy
  else []

/-- Lines 259-286: base request with overrides, then either the
capacity-provider strategy verbatim or LaunchType from the definition's
first compatibility requirement, then network configuration only when a
subnet or security group was declared. -/
def buildRunTaskInput (cluster taskDef containerName : String) (cmd : List String)
    (capacityProviderStrategy : List CapacityProviderStrategyItem)
    (requiresCompatibilities : List String)
    (subnets securityGroups : List String) : RunTaskInput :=
  let base : RunTaskInput :=
    { cluster := cluster, taskDefinition := taskDef, containerName := containerName,
      command := cmd, capacityProviderStrategy := [], launchType := none,
      networkConfiguration := none }
  let withLaunch :=
    if capacityProviderStrategy.length > 0 then
      { base with capacityProviderStrategy := capacityProviderStrategy }
    else
      { base with launchType := some (requiresCompatibilities.headD "") }
  if subnets.length > 0 || securityGroups.length > 0 then
    { withLaunch with
      networkConfiguration := some ⟨subnets, securityGroups, "ENABLED"⟩ }
  else withLaunch

structure RunTaskOutputTask where
  taskArn : Option String
deriving DecidableEq, Repr

/-- Observable outcome of waitForTaskCompletion: the log entries it
appended to the result, the Finished flag it left, and its error. -/
structure WaitOutcome where
  logs : List LogEntry
  finished : Bool
  err : Option String
deriving DecidableEq, Repr

/-- Responses of the external calls Execute makes, in the order it makes
them.  runTask is a function of the assembled request. -/
structure ExecuteEnv where
  describeServices : Except String (List ServiceInfo)
  latestTaskDefArn : Except String String
  describeTask : Except String TaskDefinition
  cloneTaskDefArn : Except String String
  runTask : RunTaskInput → Except String (List RunTaskOutputTask)
  wait : WaitOutcome

/-- ExecuteResult (internal/ecs/types.go); Execute never sets
ServiceName, so it stays the zero value. -/
structure ExecuteResult where
  serviceName : String
  taskDefinition : String
  taskArn : String
  newTaskDefCreated : Bool
  finished : Bool
  logs : List LogEntry
deriving DecidableEq, Repr

/-- Execute: returns the Go (result pointer, error) pair as
(Option ExecuteResult, Option String). -/
def Execute (env : ExecuteEnv) (cluster service : String) (cmd : List String)
    (waitForCompletion : Bool) (dockerImageTag : String) :
    Option ExecuteResult × Option String :=
  match env.describeServices with
  | .error e =>
    (none, some ("error describing service " ++ service ++ " in cluster " ++ cluster ++ ": " ++ e))
  | .ok services =>
    match services with
    | [] => (none, some "failed to get service information: no services found in response")
    | serviceInfo :: _ =>
      match env.latestTaskDefArn with
      | .error e =>
        (none, some ("error getting task definition for service " ++ service ++ ": " ++ e))
      | .ok taskDefArn =>
        let (subnets, securityGroups) := extractNetwork serviceInfo
        let capacityProviderStrategy := extractCapacityStrategy serviceInfo
        match env.describeTask with
        | .error e => (none, some ("error loading task definition " ++ taskDefArn ++ ": " ++ e))
        | .ok tdef =>
          match (if dockerImageTag ≠ "" then
                   env.cloneTaskDefArn.map (fun arn => (arn, true))
                 else .ok (taskDefArn, false)) with
          | .error e => (none, some e)
          | .ok (taskDef, newTaskDefCreated) =>
            let runInput := buildRunTaskInput cluster taskDef tdef.name cmd
              capacityProviderStrategy tdef.requiresCompatibilities subnets securityGroups
            match env.runTask runInput with
            | .error e => (none, some e)
            | .ok tasks =>
              match tasks with
              | [] => (none, some "failed to get executed task: no tasks found in response")
              | executedTask :: _ =>
                match executedTask.taskArn with
                | none => (none, some "executed task has no ARN")
                | some taskArn =>
                  let result : ExecuteResult :=
                    { serviceName := "", taskDefinition := taskDef, taskArn := taskArn,
                      newTaskDefCreated := newTaskDefCreated, finished := false, logs := [] }
                  if waitForCompletion then
                    let waited :=
                      { result with finished := env.wait.finished, logs := env.wait.logs }
                    match env.wait.err with
                    | some e => (some waited, some e)
                    | none => (some waited, none)
                  else (some result, none)

/-! ## Claims -/

/-- C9: for every partition, region, account id and log-group name, the
log-group identifier constructed for live-tail equals exactly the string
arn:partition:logs:region:account:log-group:name. -/
theorem C9_logGroupARN_format (partition region accountID name : String) :
    buildLogGroupARN partition region accountID name =
      "arn:" ++ partition ++ ":logs:" ++ region ++ ":" ++ accountID ++ ":log-group:" ++ name := by
  apply String.ext
  simp only [buildLogGroupARN, buildARN, String.data_append, List.append_assoc]
  rfl

/-- C10: for every syntactically valid ARN the resource extractor yields
the part of the resource after its last slash (the whole resource when it
has none), it fails exactly when the ARN does not parse, and the
extracted id is the one placed into the prefix/container/id log-stream
name. -/
theorem C10_extractARNResource_spec (s : String) :
    (extractARNResource s = none ↔ arnParse s = none) ∧
    (∀ a, arnParse s = some a → ∃ r,
      extractARNResource s = some r ∧ '/' ∉ r.data ∧
      (('/' ∉ a.resource.data ∧ r = a.resource) ∨
        ∃ pre, a.resource.data = pre ++ '/' :: r.data) ∧
      ∀ pfx containerName, buildLogStreamPattern pfx containerName s =
        some (pfx ++ "/" ++ containerName ++ "/" ++ r)) := by
  constructor
  · unfold extractARNResource
    cases h : arnParse s with
    | none => simp
    | some a =>
      simp only [h]
      cases hl : goLastIndex '/' a.resource.data <;> simp
  · intro a ha
    cases hl : goLastIndex '/' a.resource.data with
    | none =>
      refine ⟨a.resource, ?_, goLastIndex_none _ _ hl,
        Or.inl ⟨goLastIndex_none _ _ hl, rfl⟩, ?_⟩
      · simp only [extractARNResource, ha, hl]
      · intro pfx containerName
        simp only [buildLogStreamPattern, extractARNResource, ha, hl]
    | some i =>
      obtain ⟨pre, hpre, hnot⟩ := goLastIndex_some '/' a.resource.data i hl
      refine ⟨String.mk (a.resource.data.drop (i + 1)), ?_, hnot, Or.inr ⟨pre, hpre⟩, ?_⟩
      · simp only [extractARNResource, ha, hl]
      · intro pfx containerName
        simp only [buildLogStreamPattern, extractARNResource, ha, hl]

/-- C10 witness at a concrete task ARN. -/
theorem C10_extractARNResource_spec_witness :
    ∃ r, extractARNResource "arn:aws:ecs:us-east-1:123456789012:task/default/abc123" = some r ∧
      '/' ∉ r.data ∧
      (('/' ∉ ("task/default/abc123" : String).data ∧ r = "task/default/abc123") ∨
        ∃ pre, ("task/default/abc123" : String).data = pre ++ '/' :: r.data) ∧
      ∀ pfx containerName,
        buildLogStreamPattern pfx containerName
            "arn:aws:ecs:us-east-1:123456789012:task/default/abc123" =
          some (pfx ++ "/" ++ containerName ++ "/" ++ r) :=
  (C10_extractARNResource_spec "arn:aws:ecs:us-east-1:123456789012:task/default/abc123").2
    ⟨"aws", "ecs", "us-east-1", "123456789012", "task/default/abc123"⟩ (by decide)

/-- C5: a status poll whose response reports STOPPED with a first
container exit code and a task ARN returns (true, nil) for exit code 0
and (true, error carrying the ARN and the code) for nonzero codes. -/
theorem C5_checkTaskStatus_stopped (output : DescribeTasksOutput)
    (taskInfo : TaskStatus) (restTasks : List TaskStatus)
    (container : ContainerStatus) (restContainers : List ContainerStatus)
    (arn : String) (code : Int)
    (htasks : output.tasks = taskInfo :: restTasks)
    (hstatus : taskInfo.lastStatus = some "STOPPED")
    (hconts : taskInfo.containers = container :: restContainers)
    (hexit : container.exitCode = some code)
    (harn : taskInfo.taskArn = some arn) :
    checkTaskStatus output =
      if code = 0 then (true, none)
      else (true, some (TaskError.taskFailed arn code)) := by
  by_cases hc : code = 0 <;>
    simp [checkTaskStatus, htasks, hstatus, hconts, hexit, harn, hc]

/-- C5 witness: exit code 137 yields (true, TaskFailed). -/
theorem C5_checkTaskStatus_stopped_witness :
    checkTaskStatus ⟨[⟨some "STOPPED", [⟨some 137⟩], some "arn:aws:ecs:eu:1:task/abc"⟩]⟩ =
      (true, some (TaskError.taskFailed "arn:aws:ecs:eu:1:task/abc" 137)) := by
  have h := C5_checkTaskStatus_stopped
    ⟨[⟨some "STOPPED", [⟨some 137⟩], some "arn:aws:ecs:eu:1:task/abc"⟩]⟩
    ⟨some "STOPPED", [⟨some 137⟩], some "arn:aws:ecs:eu:1:task/abc"⟩ []
    ⟨some 137⟩ [] "arn:aws:ecs:eu:1:task/abc" 137 rfl rfl rfl rfl rfl
  simpa using h

/-- C1 counterexample: the clone splits the image reference on its FIRST
colon, not its last: for an image whose repository part itself contains a
colon (registry with port), the produced reference differs from the one
the claim requires. -/
theorem C1_counterexample :
    cloneTaskDef (TaskDefinitionResp.mk [⟨some "registry.example.com:5000/app:v1", (0 : Nat)⟩] (0 : Nat)) "v2"
      = .ok (TaskDefinitionResp.mk [⟨some "registry.example.com:v2", 0⟩] 0) ∧
    ("registry.example.com:v2" : String) ≠ "registry.example.com:5000/app" ++ ":" ++ "v2" :=
  ⟨rfl, by decide⟩

/-- C1 amended: for a task definition with exactly one container whose
image is present, cloning registers the definition with every field
preserved except the image, whose new value is the part of the original
reference before its FIRST colon, joined with the override tag. -/
theorem C1_cloneTaskDef_single (α β : Type) (containerDef : ContainerDefinition α)
    (restFields : β) (image tag : String) (himg : containerDef.image = some image) :
    cloneTaskDef ⟨[containerDef], restFields⟩ tag =
      .ok ⟨[{ containerDef with
              image := some (String.mk (image.data.takeWhile (· != ':')) ++ ":" ++ tag) }],
           restFields⟩ := by
  simp [cloneTaskDef, himg, newDockerURI, goSplit_head_getD]

/-- C1 witness at a concrete single-container definition. -/
theorem C1_cloneTaskDef_single_witness :
    cloneTaskDef (TaskDefinitionResp.mk [⟨some "app:v1", (7 : Nat)⟩] (5 : Nat)) "v2"
      = .ok (TaskDefinitionResp.mk [⟨some "app:v2", 7⟩] 5) := by
  have h := C1_cloneTaskDef_single Nat Nat ⟨some "app:v1", 7⟩ 5 "app:v1" "v2" rfl
  rw [h]
  rfl

/-- C2 counterexample: an unrecognized non-nil event received while the
stream reports no error does NOT terminate the relay: the session-update
that follows it is still relayed (both events are consumed), contrary to
the claim that any unrecognized event terminates the relay. -/
theorem C2_counterexample :
    relayRun [.unknown false, .sessionUpdate [⟨some "s", some "m", some 1⟩]]
      = ([⟨"s", "m", 1⟩], 2) ∧
    relayRun [.unknown false, .sessionUpdate [⟨some "s", some "m", some 1⟩]] ≠ ([], 1) := by
  decide

/-- C2 amended: session-start events are ignored and session-update
entries with all three fields present are forwarded in server order, an
unrecognized non-nil event with no stream error is merely skipped, while
a nil event or a stream error terminates the relay (which closes the
channel); the relay channel's capacity is 100. -/
theorem C2_relay_spec :
    (∀ events : List StreamEvent, (∀ e ∈ events, benignEvent e = true) →
      relayRun events = ((events.map eventEntries).flatten, events.length)) ∧
    (∀ events b, relayRun (.nilEvent b :: events) = ([], 1)) ∧
    (∀ events, relayRun (.unknown true :: events) = ([], 1)) ∧
    tailLogChanCapacity = 100 := by
  refine ⟨?_, fun _ _ => rfl, fun _ => rfl, rfl⟩
  intro events h
  induction events with
  | nil => rfl
  | cons e rest ih =>
    have he : benignEvent e = true := h e (List.mem_cons_self e rest)
    have hrest : ∀ x ∈ rest, benignEvent x = true :=
      fun x hx => h x (List.mem_cons_of_mem e hx)
    cases e with
    | sessionStart => simp [relayRun, ih hrest, eventEntries]
    | sessionUpdate sessionResults => simp [relayRun, ih hrest, eventEntries]
    | unknown streamErr =>
      cases streamErr with
      | false => simp [relayRun, ih hrest, eventEntries]
      | true => simp [benignEvent] at he
    | nilEvent streamErr => simp [benignEvent] at he

/-- C2 witness: the spec scenario, a session-start followed by a
session-update with two entries relays exactly those two entries in
order. -/
theorem C2_relay_spec_witness :
    relayRun [.sessionStart,
        .sessionUpdate [⟨some "s", some "a", some 1⟩, ⟨some "s", some "b", some 2⟩]] =
      ([⟨"s", "a", 1⟩, ⟨"s", "b", 2⟩], 2) := by
  have h := C2_relay_spec.1
    [.sessionStart,
      .sessionUpdate [⟨some "s", some "a", some 1⟩, ⟨some "s", some "b", some 2⟩]]
    (by decide)
  exact h.trans (by decide)

/-- C3 counterexample: the batch fetch does not sort: a response batch
whose events are out of chronological order is handed over unsorted. -/
theorem C3_counterexample :
    (getTaskLogs [⟨some "s", some "m1", some 100⟩, ⟨some "s", some "m2", some 50⟩] none).1
      = [⟨"s", "m1", 100⟩, ⟨"s", "m2", 50⟩] ∧
    isSortedByTimestamp
      (getTaskLogs [⟨some "s", some "m1", some 100⟩, ⟨some "s", some "m2", some 50⟩] none).1
      = false := by
  decide

/-- C3 amended: the batch fetch returns entries in server order; the
ascending-by-timestamp ordering is established by the logs command's
consumer-side sort, which returns a permutation of the fetched entries
sorted by timestamp, and there are batches the fetch itself hands over
unsorted. -/
theorem C3_sorted_by_consumer :
    (∀ logs : List LogEntry,
      List.Sorted logLE (sortLogs logs) ∧ List.Perm (sortLogs logs) logs) ∧
    (∃ events : List FilteredLogEvent, ∃ start : Option Int,
      isSortedByTimestamp (getTaskLogs events start).1 = false) := by
  refine ⟨fun logs => ⟨List.sorted_insertionSort logLE logs,
    List.perm_insertionSort logLE logs⟩, ?_⟩
  exact ⟨[⟨some "s", some "m1", some 100⟩, ⟨some "s", some "m2", some 50⟩], none, by decide⟩

/-- C4 counterexample: the cursor after a non-empty batch is last event
timestamp + 1, which is NOT strictly greater than the timestamp of the
last delivered entry when a later, incomplete event carries an older
timestamp: here the cursor is 51 while the last delivered entry has
timestamp 100. -/
theorem C4_counterexample :
    getTaskLogs [⟨some "s", some "m", some 100⟩, ⟨some "s", none, some 50⟩] (some 5)
      = ([⟨"s", "m", 100⟩], 51) ∧ ¬ ((51 : Int) > 100) := by
  decide

/-- C4 amended: when the batch is non-empty and its last event carries
timestamp t, the cursor becomes t + 1, strictly above every delivered
entry whose timestamp is at most t (in particular all of them when the
batch is chronologically ordered); when the batch is empty the cursor
equals the prior cursor, unchanged, so polling twice on empty batches
yields the same cursor both times. -/
theorem C4_cursor_rules (events : List FilteredLogEvent) (start : Option Int) :
    (∀ lastEvent t, events.getLast? = some lastEvent → lastEvent.timestamp = some t →
      (getTaskLogs events start).2 = t + 1 ∧
      ∀ entry ∈ (getTaskLogs events start).1, entry.timestamp ≤ t →
        entry.timestamp < (getTaskLogs events start).2) ∧
    (∀ prior : Int, events = [] → start = some prior →
      (getTaskLogs events start).2 = prior) ∧
    (events = [] →
      (getTaskLogs [] (some (getTaskLogs events start).2)).2 = (getTaskLogs events start).2) := by
  refine ⟨?_, ?_, ?_⟩
  · intro lastEvent t hlast ht
    have hcur : (getTaskLogs events start).2 = t + 1 := by
      simp [getTaskLogs, nextCursor, hlast, ht]
    refine ⟨hcur, ?_⟩
    intro entry _ hle
    rw [hcur]
    omega
  · intro prior hev hstart
    simp [getTaskLogs, nextCursor, hev, hstart]
  · intro hev
    simp [getTaskLogs, nextCursor, hev]

/-- C4 witness: a one-event batch with timestamp 10 and no prior cursor
yields cursor 11, strictly above the delivered entry. -/
theorem C4_cursor_rules_witness :
    (getTaskLogs [⟨some "s", some "m", some 10⟩] none).2 = 11 ∧
    ∀ entry ∈ (getTaskLogs [⟨some "s", some "m", some 10⟩] none).1, entry.timestamp ≤ 10 →
      entry.timestamp < (getTaskLogs [⟨some "s", some "m", some 10⟩] none).2 := by
  have h := (C4_cursor_rules [⟨some "s", some "m", some 10⟩] none).1
    ⟨some "s", some "m", some 10⟩ 10 rfl rfl
  exact ⟨h.1, h.2⟩

theorem buildRunTaskInput_strategy_proj (cluster taskDef containerName : String)
    (cmd : List String) (cps : List CapacityProviderStrategyItem)
    (compat : List String) (subnets securityGroups : List String) :
    (buildRunTaskInput cluster taskDef containerName cmd cps compat
        subnets securityGroups).capacityProviderStrategy =
      if cps.length > 0 then cps else [] := by
  unfold buildRunTaskInput
  split <;> split <;> rfl

theorem buildRunTaskInput_launchType_proj (cluster taskDef containerName : String)
    (cmd : List String) (cps : List CapacityProviderStrategyItem)
    (compat : List String) (subnets securityGroups : List String) :
    (buildRunTaskInput cluster taskDef containerName cmd cps compat
        subnets securityGroups).launchType =
      if cps.length > 0 then none else some (compat.headD "") := by
  unfold buildRunTaskInput
  split <;> split <;> rfl

theorem buildRunTaskInput_network_proj (cluster taskDef containerName : String)
    (cmd : List String) (cps : List CapacityProviderStrategyItem)
    (compat : List String) (subnets securityGroups : List String) :
    (buildRunTaskInput cluster taskDef containerName cmd cps compat
        subnets securityGroups).networkConfiguration =
      if subnets.length > 0 || securityGroups.length > 0 then
        some ⟨subnets, securityGroups, "ENABLED"⟩
      else none := by
  unfold buildRunTaskInput
  split <;> split <;> rfl

/-- C6: when the owning service declares a non-empty capacity-provider
strategy the run request carries it verbatim and omits LaunchType;
otherwise LaunchType is the first declared compatibility requirement of
the definition and no strategy is attached. -/
theorem C6_launch_selection (cluster taskDef containerName : String)
    (cmd : List String) (serviceInfo : ServiceInfo)
    (requiresCompatibilities : List String) (subnets securityGroups : List String) :
    (serviceInfo.capacityProviderStrategy ≠ [] →
      (buildRunTaskInput cluster taskDef containerName cmd
          (extractCapacityStrategy serviceInfo) requiresCompatibilities
          subnets securityGroups).capacityProviderStrategy
        = serviceInfo.capacityProviderStrategy ∧
      (buildRunTaskInput cluster taskDef containerName cmd
          (extractCapacityStrategy serviceInfo) requiresCompatibilities
          subnets securityGroups).launchType = none) ∧
    (serviceInfo.capacityProviderStrategy = [] →
      ∀ compat0 compatRest, requiresCompatibilities = compat0 :: compatRest →
        (buildRunTaskInput cluster taskDef containerName cmd
            (extractCapacityStrategy serviceInfo) requiresCompatibilities
            subnets securityGroups).launchType = some compat0 ∧
        (buildRunTaskInput cluster taskDef containerName cmd
            (extractCapacityStrategy serviceInfo) requiresCompatibilities
            subnets securityGroups).capacityProviderStrategy = []) := by
  constructor
  · intro h
    have hlen : serviceInfo.capacityProviderStrategy.length > 0 :=
      List.length_pos.mpr h
    rw [buildRunTaskInput_strategy_proj, buildRunTaskInput_launchType_proj]
    simp [extractCapacityStrategy, hlen]
  · intro h compat0 compatRest hc
    have hlen : ¬ (extractCapacityStrategy serviceInfo).length > 0 := by
      simp [extractCapacityStrategy, h]
    rw [buildRunTaskInput_strategy_proj, buildRunTaskInput_launchType_proj]
    simp [hlen, hc]

/-- C6 witness: one weighted strategy entry yields a request carrying the
strategy and omitting LaunchType. -/
theorem C6_launch_selection_witness :
    (buildRunTaskInput "demo" "td:1" "app" [] (extractCapacityStrategy
        ⟨none, [⟨"FARGATE_SPOT", 1, 0⟩]⟩) ["FARGATE"] [] []).capacityProviderStrategy
      = [⟨"FARGATE_SPOT", 1, 0⟩] ∧
    (buildRunTaskInput "demo" "td:1" "app" [] (extractCapacityStrategy
        ⟨none, [⟨"FARGATE_SPOT", 1, 0⟩]⟩) ["FARGATE"] [] []).launchType = none :=
  (C6_launch_selection "demo" "td:1" "app" [] ⟨none, [⟨"FARGATE_SPOT", 1, 0⟩]⟩
    ["FARGATE"] [] []).1 (by decide)

/-- C7: the run request carries a network-configuration field exactly
when the service declared at least one subnet or at least one security
group; with neither, the field is omitted entirely, and when present it
is the declared subnets and security groups. -/
theorem C7_network_placement (cluster taskDef containerName : String)
    (cmd : List String) (serviceInfo : ServiceInfo)
    (cps : List CapacityProviderStrategyItem) (compat : List String)
    (subnets securityGroups : List String)
    (hnet : extractNetwork serviceInfo = (subnets, securityGroups)) :
    ((buildRunTaskInput cluster taskDef containerName cmd cps compat
        subnets securityGroups).networkConfiguration ≠ none ↔
      (subnets ≠ [] ∨ securityGroups ≠ [])) ∧
    ((buildRunTaskInput cluster taskDef containerName cmd cps compat
        subnets securityGroups).networkConfiguration = none ∨
      (buildRunTaskInput cluster taskDef containerName cmd cps compat
        subnets securityGroups).networkConfiguration =
          some ⟨subnets, securityGroups, "ENABLED"⟩) ∧
    (serviceInfo.networkConfiguration = none →
      (buildRunTaskInput cluster taskDef containerName cmd cps compat
        subnets securityGroups).networkConfiguration = none) := by
  simp only [buildRunTaskInput_network_proj]
  refine ⟨?_, ?_, ?_⟩
  · constructor
    · intro hne
      by_contra hboth
      push_neg at hboth
      simp [hboth.1, hboth.2] at hne
    · intro hor
      rcases hor with h | h
      · have hp : subnets.length > 0 := List.length_pos.mpr h
        simp [hp]
      · have hp : securityGroups.length > 0 := List.length_pos.mpr h
        simp [hp]
  · by_cases hc : (decide (subnets.length > 0) || decide (securityGroups.length > 0)) = true <;>
      simp [hc]
  · intro hnone
    simp only [extractNetwork, hnone, Prod.mk.injEq] at hnet
    simp [← hnet.1, ← hnet.2]

/-- C7 witness: a service declaring one subnet gets a network block with
exactly that subnet; the iff holds at this input. -/
theorem C7_network_placement_witness :
    ((buildRunTaskInput "demo" "td:1" "app" [] [] ["FARGATE"]
        ["subnet-1"] []).networkConfiguration ≠ none ↔
      ((["subnet-1"] : List String) ≠ [] ∨ (([] : List String) ≠ []))) ∧
    ((buildRunTaskInput "demo" "td:1" "app" [] [] ["FARGATE"]
        ["subnet-1"] []).networkConfiguration = none ∨
      (buildRunTaskInput "demo" "td:1" "app" [] [] ["FARGATE"]
        ["subnet-1"] []).networkConfiguration = some ⟨["subnet-1"], [], "ENABLED"⟩) ∧
    ((⟨some ⟨["subnet-1"], []⟩, []⟩ : ServiceInfo).networkConfiguration = none →
      (buildRunTaskInput "demo" "td:1" "app" [] [] ["FARGATE"]
        ["subnet-1"] []).networkConfiguration = none) :=
  C7_network_placement "demo" "td:1" "app" [] ⟨some ⟨["subnet-1"], []⟩, []⟩
    [] ["FARGATE"] ["subnet-1"] [] rfl

/-- C8: an error during service description, definition resolution,
cloning or task submission makes Execute return a nil result with the
error, while an error from the wait phase is returned together with the
still-non-nil partial result whose collected logs are kept. -/
theorem C8_execute_propagation (env : ExecuteEnv) (cluster service : String)
    (cmd : List String) (w : Bool) (tag : String) :
    (∀ e, env.describeServices = .error e →
      Execute env cluster service cmd w tag =
        (none, some ("error describing service " ++ service ++ " in cluster " ++
          cluster ++ ": " ++ e))) ∧
    (env.describeServices = .ok [] →
      Execute env cluster service cmd w tag =
        (none, some "failed to get service information: no services found in response")) ∧
    (∀ serviceInfo restSvcs e, env.describeServices = .ok (serviceInfo :: restSvcs) →
      env.latestTaskDefArn = .error e →
      Execute env cluster service cmd w tag =
        (none, some ("error getting task definition for service " ++ service ++ ": " ++ e))) ∧
    (∀ serviceInfo restSvcs arn e, env.describeServices = .ok (serviceInfo :: restSvcs) →
      env.latestTaskDefArn = .ok arn → env.describeTask = .error e →
      Execute env cluster service cmd w tag =
        (none, some ("error loading task definition " ++ arn ++ ": " ++ e))) ∧
    (∀ serviceInfo restSvcs arn tdef e, tag ≠ "" →
      env.describeServices = .ok (serviceInfo :: restSvcs) →
      env.latestTaskDefArn = .ok arn → env.describeTask = .ok tdef →
      env.cloneTaskDefArn = .error e →
      Execute env cluster service cmd w tag = (none, some e)) ∧
    (∀ serviceInfo restSvcs arn tdef taskDef created e,
      env.describeServices = .ok (serviceInfo :: restSvcs) →
      env.latestTaskDefArn = .ok arn → env.describeTask = .ok tdef →
      ((tag = "" ∧ taskDef = arn ∧ created = false) ∨
        (tag ≠ "" ∧ env.cloneTaskDefArn = .ok taskDef ∧ created = true)) →
      env.runTask (buildRunTaskInput cluster taskDef tdef.name cmd
        (extractCapacityStrategy serviceInfo) tdef.requiresCompatibilities
        (extractNetwork serviceInfo).1 (extractNetwork serviceInfo).2) = .error e →
      Execute env cluster service cmd w tag = (none, some e)) ∧
    (∀ serviceInfo restSvcs arn tdef taskDef created executedTask restTasks taskArn e,
      env.describeServices = .ok (serviceInfo :: restSvcs) →
      env.latestTaskDefArn = .ok arn → env.describeTask = .ok tdef →
      ((tag = "" ∧ taskDef = arn ∧ created = false) ∨
        (tag ≠ "" ∧ env.cloneTaskDefArn = .ok taskDef ∧ created = true)) →
      env.runTask (buildRunTaskInput cluster taskDef tdef.name cmd
        (extractCapacityStrategy serviceInfo) tdef.requiresCompatibilities
        (extractNetwork serviceInfo).1 (extractNetwork serviceInfo).2)
          = .ok (executedTask :: restTasks) →
      executedTask.taskArn = some taskArn →
      env.wait.err = some e →
      Execute env cluster service cmd true tag =
        (some ⟨"", taskDef, taskArn, created, env.wait.finished, env.wait.logs⟩, some e)) := by
  refine ⟨?_, ?_, ?_, ?_, ?_, ?_, ?_⟩
  · intro e h
    simp [Execute, h]
  · intro h
    simp [Execute, h]
  · intro serviceInfo restSvcs e h1 h2
    simp [Execute, h1, h2]
  · intro serviceInfo restSvcs arn e h1 h2 h3
    simp [Execute, h1, h2, h3]
  · intro serviceInfo restSvcs arn tdef e htag h1 h2 h3 h4
    simp [Execute, h1, h2, h3, h4, htag, Except.map]
  · intro serviceInfo restSvcs arn tdef taskDef created e h1 h2 h3 hres h4
    rcases hres with ⟨htag, rfl, rfl⟩ | ⟨htag, hc, rfl⟩
    · simp [Execute, h1, h2, h3, htag, h4]
    · simp [Execute, h1, h2, h3, htag, hc, Except.map, h4]
  · intro serviceInfo restSvcs arn tdef taskDef created executedTask restTasks taskArn e
      h1 h2 h3 hres h4 h5 h6
    rcases hres with ⟨htag, rfl, rfl⟩ | ⟨htag, hc, rfl⟩
    · simp [Execute, h1, h2, h3, htag, h4, h5, h6]
    · simp [Execute, h1, h2, h3, htag, hc, Except.map, h4, h5, h6]

/-- C8 witness, on the cloned-definition path: with an image-tag
override, a successful clone and launch, and a failing wait phase,
Execute returns the partial result built on the cloned definition, with
the collected log entry, together with the wait error. -/
theorem C8_execute_propagation_witness :
    Execute
      ⟨.ok [⟨none, []⟩], .ok "def-arn", .ok ⟨"app", "grp", "pfx", "256", "512", ["FARGATE"]⟩,
        .ok "cloned-arn", fun _ => .ok [⟨some "task-arn"⟩],
        ⟨[⟨"s", "hello", 1⟩], false, some "poll failed"⟩⟩
      "demo" "web" [] true "v2" =
      (some ⟨"", "cloned-arn", "task-arn", true, false, [⟨"s", "hello", 1⟩]⟩,
        some "poll failed") := by
  have h := (C8_execute_propagation
    ⟨.ok [⟨none, []⟩], .ok "def-arn", .ok ⟨"app", "grp", "pfx", "256", "512", ["FARGATE"]⟩,
      .ok "cloned-arn", fun _ => .ok [⟨some "task-arn"⟩],
      ⟨[⟨"s", "hello", 1⟩], false, some "poll failed"⟩⟩
    "demo" "web" [] true "v2").2.2.2.2.2.2
    ⟨none, []⟩ [] "def-arn" ⟨"app", "grp", "pfx", "256", "512", ["FARGATE"]⟩
    "cloned-arn" true ⟨some "task-arn"⟩ [] "task-arn" "poll failed"
    rfl rfl rfl (Or.inr ⟨by decide, rfl, rfl⟩) rfl rfl rfl
  exact h

end RunECS
